import Mathlib

set_option maxRecDepth 40000

/-!
Verification development for the `python_skeleton` crate: name validation
(`src/validation.rs`), directory planning (`src/dir_builder.rs`), file
manifests (`src/files_builder.rs`, `src/files_builder/files_content.rs`)
and the build orchestrator with rollback (`src/lib.rs`).

Strings are modelled as Lean `String`s and iterated over their `List Char`
of Unicode scalar values, exactly as Rust's `str::chars` does. The Rust
standard-library character classifiers used by the crate
(`char::is_numeric`, `char::is_alphabetic`, `char::to_ascii_uppercase`,
`str::to_lowercase`) are modelled by explicit code-point tables that are
faithful on the Latin-1 range (U+0000..U+00FF) plus U+03BC (the lowercase
image of U+00B5); every concrete input used below lies in that range.
-/

/-- Model of Rust `char::is_numeric` (Unicode property `N`), faithful on the
Latin-1 range: the ASCII decimal digits together with the Latin-1 numeric
signs `²³¹¼½¾`. -/
def rustIsNumeric (c : Char) : Bool :=
  (48 ≤ c.toNat && c.toNat ≤ 57) ||
  c.toNat = 0xB2 || c.toNat = 0xB3 || c.toNat = 0xB9 ||
  c.toNat = 0xBC || c.toNat = 0xBD || c.toNat = 0xBE

/-- Model of Rust `char::is_alphabetic` (Unicode property `Alphabetic`),
faithful on the Latin-1 range plus U+03BC: the ASCII letters, `ªµº`, and the
Latin-1 letters `À`..`Ö`, `Ø`..`ö`, `ø`..`ÿ` (excluding `×` and `÷`), plus
the Greek letter `μ` (U+03BC). -/
def rustIsAlphabetic (c : Char) : Bool :=
  (65 ≤ c.toNat && c.toNat ≤ 90) || (97 ≤ c.toNat && c.toNat ≤ 122) ||
  c.toNat = 0xAA || c.toNat = 0xB5 || c.toNat = 0xBA ||
  (0xC0 ≤ c.toNat && c.toNat ≤ 0xD6) || (0xD8 ≤ c.toNat && c.toNat ≤ 0xF6) ||
  (0xF8 ≤ c.toNat && c.toNat ≤ 0xFF) || c.toNat = 0x3BC

/-- Model of Rust `char::to_ascii_uppercase`: maps `a`..`z` to `A`..`Z` and
leaves every other scalar value (ASCII or not) unchanged. -/
def rustToAsciiUppercase (c : Char) : Char :=
  if 97 ≤ c.toNat && c.toNat ≤ 122 then Char.ofNat (c.toNat - 32) else c

/-- Model of the per-character action of Rust `str::to_lowercase`, faithful
on the Latin-1 range: `A`..`Z` and `À`..`Þ` (excluding `×`) shift down by
`0x20`, `µ` (U+00B5) maps to `μ` (U+03BC), everything else is unchanged.
(On this range Rust's `to_lowercase` is exactly character-wise.) -/
def rustCharToLowercase (c : Char) : Char :=
  if 65 ≤ c.toNat && c.toNat ≤ 90 then Char.ofNat (c.toNat + 32)
  else if (0xC0 ≤ c.toNat && c.toNat ≤ 0xDE) && !(c.toNat = 0xD7) then
    Char.ofNat (c.toNat + 32)
  else if c.toNat = 0xB5 then Char.ofNat 0x3BC
  else c

/-- Model of Rust `str::to_lowercase` on whole strings (character-wise on
the modelled range). -/
def rustToLowercase (s : String) : String :=
  ⟨s.data.map rustCharToLowercase⟩

/-- ASCII letter predicate, used to state claims that quantify over strings
of ASCII letters. -/
def isAsciiLetter (c : Char) : Bool :=
  (65 ≤ c.toNat && c.toNat ≤ 90) || (97 ≤ c.toNat && c.toNat ≤ 122)

/-- ASCII decimal digit predicate (`0`..`9`), used to state the claims
about decimal digits. -/
def isAsciiDigit (c : Char) : Bool :=
  48 ≤ c.toNat && c.toNat ≤ 57

/-- The two casing policies of `validation.rs` (`enum Case`). -/
inductive Case where
  | SnakeCase
  | TrainCase
deriving DecidableEq, Repr

/-- The validation errors of `validation.rs` (`enum ErrorCase`). -/
inductive ErrorCase where
  | NumberNotAllowed
  | SpecialCharNotAllowed
deriving DecidableEq, Repr

/-- The character-scanning loop of `validate_name_snake`
(`validation.rs:139-146`): first violation wins, scanning left to right.
Returns `some e` when the loop returns early with error `e`. -/
def snakeLoop : List Char → Option ErrorCase
  | [] => none
  | c :: cs =>
    if rustIsNumeric c then some .NumberNotAllowed
    else if !rustIsAlphabetic c && !(c = '_') then some .SpecialCharNotAllowed
    else snakeLoop cs

/-- `validate_name_snake` (`validation.rs:138-148`): scan the raw
characters; if none violates the rules, return the lowercased input. -/
def validate_name_snake (name : String) : Except ErrorCase String :=
  match snakeLoop name.data with
  | some e => .error e
  | none => .ok (rustToLowercase name)

/-- The state-machine loop of `validate_name_train`
(`validation.rs:151-169`): iterates over the characters of the lowercased
input carrying the `upper_case` flag and the accumulated `new_name`
(kept reversed here). Mirrors the source exactly: when the flag is set the
character is pushed ASCII-uppercased, the flag is cleared, and the `-`
check is skipped (the `continue`); when the flag is clear a `-` re-arms
it. -/
def trainLoop : List Char → Bool → List Char → Except ErrorCase (List Char)
  | [], _, acc => .ok acc.reverse
  | c :: cs, upperCase, acc =>
    if rustIsNumeric c then .error .NumberNotAllowed
    else if !rustIsAlphabetic c && !(c = '-') then .error .SpecialCharNotAllowed
    else if upperCase then trainLoop cs false (rustToAsciiUppercase c :: acc)
    else if c = '-' then trainLoop cs true (c :: acc)
    else trainLoop cs false (c :: acc)

/-- `validate_name_train` (`validation.rs:150-171`): run the loop over the
lowercased input with the `upper_case` flag initially set. -/
def validate_name_train (name : String) : Except ErrorCase String :=
  match trainLoop (rustToLowercase name).data true [] with
  | .error e => .error e
  | .ok cs => .ok ⟨cs⟩

/-- `check_name` (`validation.rs:211-216`): dispatch on the policy. -/
def check_name (name : String) (c : Case) : Except ErrorCase String :=
  match c with
  | .SnakeCase => validate_name_snake name
  | .TrainCase => validate_name_train name

/-- `get_dirs` (`dir_builder.rs:26-40`): the ordered directory plan — the
root and its six fixed children, with `root/docs` pushed last when `docs`
is set. -/
def get_dirs (root_name : String) (docs : Bool) (package_name : String) :
    List String :=
  let dirs := [root_name,
    root_name ++ "/config",
    root_name ++ "/files",
    root_name ++ "/notebooks",
    root_name ++ "/test",
    root_name ++ "/src",
    root_name ++ "/src/" ++ package_name]
  if docs then dirs ++ [root_name ++ "/docs"] else dirs

/-- Boilerplate template constant `SAMPLE_README` from files_content.rs. -/
def SAMPLE_README : String :=
  "# README\x27s template for projects\nA short tagline or description of what your project does.\n\n## Project Structure\n```\nproject-name/\n|- src/                # Source code\n|- tests/              # Unit tests\n|- pyproject.toml      # Python dependencies and setup\n|- README.md           # Project documentation\n|- config/             # Configuration of environments\n|- notebooks/          # Development notebooks\n|- files/              # Data related to the project\n```\n\n## Installation\nInstalation instructions goes here.\n\n## Usage\nAn explanation of how to use the package.\n\n## Running Tests\nHow to test the project, environments of package.\n\n## Configuration\nHow to configure the packages\n\n## Documentation\nWhere do I find information?\n\n## Contributing\nHow do we work together?\n\n## Issues\nHow to report something.\n\n## License\nOnly if need it.\n        "

/-- Boilerplate template constant `SAMPLE_TEST` from files_content.rs. -/
def SAMPLE_TEST : String :=
  "import pytest\n\ndef sample_test():\n    # Test something\n    pass\n        "

/-- Boilerplate template constant `SAMPLE_INIT` from files_content.rs. -/
def SAMPLE_INIT : String :=
  "\"\"\"Packages initiator.\n\nLoads the environment variables\n\"\"\"\n\nfrom .env import load_env\n\nload_env()\n        "

/-- Boilerplate template constant `SAMPLE_GITIGNORE` from files_content.rs. -/
def SAMPLE_GITIGNORE : String :=
  "# Python-generated files\n**__pycache__**\n*.py[oc]\nbuild/\ndist/\nwheels/\n*.egg-info\n\n# Virtual environments\n.venv\n\n# jupyter checkpoints\n**ipynb_checkpoints**\n            "

/-- Boilerplate template constant `SAMPLE_ENV` from files_content.rs. -/
def SAMPLE_ENV : String :=
  "\"\"\"Load environment variables.\"\"\"\n\nimport os\nfrom collections.abc import Iterable\nfrom pathlib import Path\nfrom typing import Optional\n\nimport yaml\n\ndef find_config_file(\n        possible_names: Iterable[str] = (\n                \"config.yaml\", \n                \"settings.yaml\", \n                \"DEV.yaml\")\n        ) -> Optional[Path]:\n    \"\"\"Searcher of configuration file.\n    \n    Start searching in current directory, then goes to the parents until fail or \n    find the possible file name.\n    \n    Parameters\n    ----------\n    possible_names: Iterable[str], default = (\"config.yaml\", \"settings.yaml\", \"DEV.yaml\")\n        Possible names of YAML configuration file.\n\n    Returns\n    -------\n    Optional[Path]\n        Path where the files was found.\n    \"\"\"\n    cwd = Path.cwd()\n    for parent in [cwd, *cwd.parents]:\n        for name in possible_names:\n            candidate = parent / \"config\" / name\n            if candidate.exists():\n                return candidate\n    return None\n\n\ndef load_env(path: Optional[str | Path] = None):\n    \"\"\"Load the environment variables from a YAML file.\n    \n    Parameters\n    ----------\n    path: Optional[str | Path].\n        Path to configuration file. If None, automatically search for it.\n    \"\"\"\n    # When using as package, add the environment variable\n    if path is None:\n        path = find_config_file()\n        if path is None:\n            raise FileNotFoundError(\"It was not possible to find a configuration file.\")\n    else:\n        path = Path(path)\n    # Load yaml file from the project root\n    with open(path, \"r\") as f:\n        config = yaml.safe_load(f)\n        \n    # Set environmetn variables\n    for mk in config:\n        for k in config[mk]:\n            os.environ[k] = config[mk][k]\n            "

/-- Boilerplate template constant `SAMPLE_DB` from files_content.rs. -/
def SAMPLE_DB : String :=
  "\"\"\"Databases connections.\n\nThis module provides functionalities to build secure conecctions to databases.\nCurrently, only supports Oracle and configuring the secrets with environment \nvariables.\n\nFunctions\n---------\nget_engine\n    Function to create the engine to production database.\n\"\"\"\n\nimport os\nimport sys\n\nimport oracledb\nimport sqlalchemy\n\nSTD_PRD = os.environ[\"DB_USER\"]\nSTD_PRD_PASS = os.environ[\"DB_PASSWORD\"]\nSTD_PRD_DSN = f\"\x7bos.environ.get(\x27DB_DATABASE\x27)\x7d/\x7bos.environ.get(\x27DB_HOST\x27)\x7d\"\n\n\ndef get_engine() -> sqlalchemy.Engine:\n    \"\"\"Creates the Orecle connection engine.\n        \n    This functions build the connection to Oracle database using `oracledb` as \n    backend for SQLAlchemy.\n\n    This function must be used as interaction gate with the database with the \n    engine object (`Engine`).\n\n    Returns\n    -------\n    sqlalchemy.Engine\n        Connection engine.\n\n    Raises\n    ------\n    KeyError\n        If a environment variable is missing (`DB_USER`,\n        `DB_PASSWORD`, `DB_DATABASE`, `DB_HOST`).\n\n    sqlalchemy.exc.SQLAlchemyError\n        Some error from SQLAlchemy when building the engine.\n\n    Notes\n    -----\n    The function ensure `oracledb` instead of legacy `cx_Oracle` as the `cx_Oracle` to \n    prevent compatibility problems with `oracle+oracledb` dialect with SQLAlchemy.\n\n    Examples\n    --------\n    >>> engine = get_engine()\n    >>> with engine.connect() as conn:\n    ...     result = conn.execute(text(\"SELECT * FROM employers\"))\n    ...     for row in result:\n    ...         print(row)\n    \"\"\"\n    oracledb.version = \"8.3.0\"\n    sys.modules[\"cx_Oracle\"] = oracledb\n    engine = sqlalchemy.create_engine(\n        \"oracle://:@\",\n        connect_args=\x7b\"user\": STD_PRD, \"password\": STD_PRD_PASS, \"dsn\": STD_PRD_DSN\x7d,\n    )\n    return engine\n              "

/-- Boilerplate template constant `SAMPLE_PYPROJECT` from files_content.rs. -/
def SAMPLE_PYPROJECT : String :=
  "[build-system]\nrequires = [\"setuptools >= 70.0\"]\nbuild-backend = \"setuptools.build_meta\"\n\n[project]\nname = \"\x7b\x7d\"\nversion = \"0.1.0\"\ndescription = \"Some description of the project.\"\nreadme = \"README.md\"\nrequires-python = \"==3.14.*\"\ndependencies = [\n    \"oracledb\",\n    \"sqlalchemy\",\n    \"numpy\",\n    \"polars\",\n    \"plotly\",\n    \"structlog\"\n]\n\n# Scripts here\n[project.scripts]\n\n# Uv groups dependencies\n[dependency-groups]\ndev = [\n    \"jupyterlab>=4.4.0\",\n    \"pytest\",\n    \"ipywidgets\",\n]\n\n[tool.ruff]\ntarget-version = \"py314\"\n\n[tool.ruff.lint]\nextend-select = [\"SIM\", \"I\", \"D\", \"S\", \"PT\"]\n\n[tool.ruff.lint.pydocstyle]\nconvention = \"numpy\"\n\n[tool.ruff.lint.per-file-ignores]\n\"test/*\" = [\"D\", \"s\"]\n                                         "

/-- Boilerplate template constant `SAMPLE_MAIN` from files_content.rs. -/
def SAMPLE_MAIN : String :=
  "\"\"\"Example of main file with logs.\"\"\"\n\nimport structlog\nimport polars as pl \n\n# This must be call in every file to log.\nlogger = structlog.get_logger()\n\ndf = pl.DataFrame(\x7b\"A\": [1, 2], \"B\": [3, 4]\x7d)\nlogger.info(\"Hello world!\", more_than_strings=df)\n        "

/-- Boilerplate template constant `SAMPLE_CONFIG` from files_content.rs. -/
def SAMPLE_CONFIG : String :=
  "# Environment variables are splited if categories to make them easier\n# to read.\nDB:\n    DB_USER: \"some_user\"\n    DB_PASSWORD: \"some_password\"\n    DB_HOST: \"some_host\"\n    DB_DATABASE:\"some_service\"\n        "
/-- Fuel-driven worker for `rustReplaceList`; the fuel bounds the length of
the remaining list, so the recursion is structural (and reduces by `rfl`). -/
def rustReplaceGo (pat rep : List Char) : Nat → List Char → List Char
  | _, [] => []
  | 0, l => l
  | fuel + 1, c :: rest =>
    if pat.isPrefixOf (c :: rest) && 0 < pat.length then
      rep ++ rustReplaceGo pat rep fuel (rest.drop (pat.length - 1))
    else
      c :: rustReplaceGo pat rep fuel rest

/-- Model of Rust `str::replace` on character lists: replaces every
leftmost non-overlapping occurrence of `pat` by `rep`. -/
def rustReplaceList (pat rep : List Char) (l : List Char) : List Char :=
  rustReplaceGo pat rep l.length l

/-- Model of Rust `str::replace` on strings. -/
def rustReplace (s pat rep : String) : String :=
  ⟨rustReplaceList pat.data rep.data s.data⟩

/-- Fuel-driven worker for `countOccurrences`. -/
def countOccurrencesGo (pat : List Char) : Nat → List Char → Nat
  | _, [] => 0
  | 0, _ => 0
  | fuel + 1, c :: rest =>
    if pat.isPrefixOf (c :: rest) && 0 < pat.length then
      1 + countOccurrencesGo pat fuel (rest.drop (pat.length - 1))
    else
      countOccurrencesGo pat fuel rest

/-- Number of leftmost non-overlapping occurrences of `pat` in a character
list (the occurrences that `rustReplaceList` replaces). -/
def countOccurrences (pat : List Char) (l : List Char) : Nat :=
  countOccurrencesGo pat l.length l

/-- `get_files` (`files_builder.rs:31-70`): the ordered file manifest of
`(path, content)` pairs. Only the `pyproject.toml` entry's content is
templated: the package name is substituted for the `\x7b\x7d` token. -/
def get_files (root_name : String) (package_name : String) :
    List (String × String) :=
  [(root_name ++ "/README.md", SAMPLE_README),
   (root_name ++ "/pyproject.toml",
     rustReplace SAMPLE_PYPROJECT "\x7b\x7d" package_name),
   (root_name ++ "/.gitignore", SAMPLE_GITIGNORE),
   (root_name ++ "/src/" ++ package_name ++ "/__init__.py", SAMPLE_INIT),
   (root_name ++ "/src/" ++ package_name ++ "/env.py", SAMPLE_ENV),
   (root_name ++ "/src/" ++ package_name ++ "/db.py", SAMPLE_DB),
   (root_name ++ "/test/sample_test.py", SAMPLE_TEST),
   (root_name ++ "/src/" ++ package_name ++ "/main.py", SAMPLE_MAIN),
   (root_name ++ "/config/DEV.yaml", SAMPLE_CONFIG)]

/-- A filesystem path as a list of components. Joining a relative name that
contains `/` separators (as the plans of `get_dirs`/`get_files` do) appends
its components, modelling `PathBuf::push` / path resolution. -/
abbrev FsPath := List String

/-- Split a character list on `/` into components (`acc` holds the current
component, reversed). -/
def splitPathAux : List Char → List Char → FsPath
  | [], acc => [⟨acc.reverse⟩]
  | c :: cs, acc =>
    if c = '/' then String.mk acc.reverse :: splitPathAux cs []
    else splitPathAux cs (c :: acc)

/-- Split a relative name on `/` into components. -/
def splitPath (s : String) : FsPath := splitPathAux s.data []

/-- Join a relative name onto a base path (`PathBuf::push`). -/
def joinPath (base : FsPath) (s : String) : FsPath := base ++ splitPath s

/-- A model filesystem: the set of existing directories and the set of
existing files with their contents, keyed by absolute path. -/
structure Fs where
  dirs : List FsPath
  files : List (FsPath × String)
deriving DecidableEq, Repr

/-- Whether `p` is an existing directory. -/
def Fs.isDir (fs : Fs) (p : FsPath) : Bool := fs.dirs.contains p

/-- Whether `p` is an existing file. -/
def Fs.isFile (fs : Fs) (p : FsPath) : Bool :=
  (fs.files.map Prod.fst).contains p

/-- Whether anything exists at `p`. -/
def Fs.existsPath (fs : Fs) (p : FsPath) : Bool := fs.isDir p || fs.isFile p

/-- Whether some other entry lies strictly below `p`. -/
def Fs.hasChild (fs : Fs) (p : FsPath) : Bool :=
  fs.dirs.any (fun q => p.isPrefixOf q && !(q == p)) ||
  fs.files.any (fun e => p.isPrefixOf e.1 && !(e.1 == p))

/-- Model of `std::fs::DirBuilder::create` (non-recursive): fails if the
path already exists or its parent directory does not exist. -/
def Fs.mkdir (fs : Fs) (p : FsPath) : Option Fs :=
  if fs.existsPath p then none
  else if fs.isDir p.dropLast then some { fs with dirs := p :: fs.dirs }
  else none

/-- Model of `File::create` followed by `write_all`: fails if the path is a
directory or the parent directory does not exist; otherwise creates the
file, truncating (replacing) any existing file at that path. -/
def Fs.createFile (fs : Fs) (p : FsPath) (content : String) : Option Fs :=
  if fs.isDir p then none
  else if fs.isDir p.dropLast then
    some { fs with
           files := (p, content) :: fs.files.filter (fun e => !(e.1 == p)) }
  else none

/-- Model of `std::fs::remove_dir` (non-recursive): fails unless `p` is an
existing empty directory. -/
def Fs.removeDir (fs : Fs) (p : FsPath) : Option Fs :=
  if fs.isDir p && !fs.hasChild p then
    some { fs with dirs := fs.dirs.filter (fun q => !(q == p)) }
  else none

/-- Model of `std::fs::remove_dir_all`: fails unless `p` is an existing
directory; removes `p` and everything below it. -/
def Fs.removeDirAll (fs : Fs) (p : FsPath) : Option Fs :=
  if fs.isDir p then
    some { dirs := fs.dirs.filter (fun q => !(p.isPrefixOf q)),
           files := fs.files.filter (fun e => !(p.isPrefixOf e.1)) }
  else none

/-- The creation loop of `make_dirs` (`dir_builder.rs:82-93`): create each
planned directory in order under `parent_dir`, stopping at the first
failure. Returns the resulting filesystem (with the directories created
before the failure kept) and whether the whole loop succeeded. -/
def makeDirsLoop (parent_dir : FsPath) : List String → Fs → Fs × Bool
  | [], fs => (fs, true)
  | d :: ds, fs =>
    match fs.mkdir (joinPath parent_dir d) with
    | some fs1 => makeDirsLoop parent_dir ds fs1
    | none => (fs, false)

/-- `make_dirs` (`dir_builder.rs:73-95`): run the creation loop over the
plan of `get_dirs`. (The `verbose` flag only prints and is omitted.) -/
def make_dirs (parent_dir : FsPath) (root_name : String) (docs : Bool)
    (package_name : String) (fs : Fs) : Fs × Bool :=
  makeDirsLoop parent_dir (get_dirs root_name docs package_name) fs

/-- The creation loop of `make_files` (`files_builder.rs:102-108`): create
and write each manifest file in order, relative to the current directory
`cwd`, stopping at the first failure. -/
def makeFilesLoop (cwd : FsPath) : List (String × String) → Fs → Fs × Bool
  | [], fs => (fs, true)
  | (file_name, content) :: rest, fs =>
    match fs.createFile (joinPath cwd file_name) content with
    | some fs1 => makeFilesLoop cwd rest fs1
    | none => (fs, false)

/-- `make_files` (`files_builder.rs:100-110`): run the creation loop over
the manifest of `get_files`. (The `verbose` flag only prints and is
omitted.) -/
def make_files (cwd : FsPath) (root_name : String) (package_name : String)
    (fs : Fs) : Fs × Bool :=
  makeFilesLoop cwd (get_files root_name package_name) fs

/-- The build outcome (`enum BuildError` in `lib.rs:24-29`). -/
inductive BuildError where
  | IOError
  | NameError
deriving DecidableEq, Repr

/-- `build_skeleton` (`lib.rs:68-128`), over the model filesystem.
`currentDir` models `std::env::current_dir()`: `none` is the lookup
failing. The `verbose` flag only prints and is omitted. Mirrors the
source's control flow exactly: validate the project name (Train-Case) then
the package name (snake_case), returning `NameError` on either failure
before any filesystem effect; get the current directory; run `make_dirs`,
and on failure attempt a non-recursive `remove_dir` of the root whose
outcome is discarded (`let _ = ...`), returning `IOError`; run
`make_files`, and on failure attempt a recursive `remove_dir_all` of the
root whose outcome is discarded, returning `IOError`. -/
def build_skeleton (currentDir : Option FsPath) (project_name : String)
    (pkg_name : String) (include_doc_dir : Bool) (fs : Fs) :
    Except BuildError Unit × Fs :=
  match check_name project_name Case.TrainCase with
  | .error _ => (.error .NameError, fs)
  | .ok project =>
    match check_name pkg_name Case.SnakeCase with
    | .error _ => (.error .NameError, fs)
    | .ok pkg =>
      match currentDir with
      | none => (.error .IOError, fs)
      | some dir =>
        match make_dirs dir project include_doc_dir pkg fs with
        | (fs1, false) =>
          (.error .IOError, (fs1.removeDir (joinPath dir project)).getD fs1)
        | (fs1, true) =>
          match make_files dir project pkg fs1 with
          | (fs2, false) =>
            (.error .IOError,
              (fs2.removeDirAll (joinPath dir project)).getD fs2)
          | (fs2, true) => (.ok (), fs2)

/-- The recasing pass that `validate_name_train` actually performs, stated
as a pure function of the (already lowercased) character list: the
capitalize-next flag starts set; a character processed with the flag set is
pushed ASCII-uppercased and clears the flag (even when that character is
itself a `-`); a `-` processed with the flag clear re-arms it. -/
def trainRecase : List Char → Bool → List Char
  | [], _ => []
  | c :: cs, true => rustToAsciiUppercase c :: trainRecase cs false
  | c :: cs, false =>
    if c = '-' then c :: trainRecase cs true else c :: trainRecase cs false

/-- Modelled from the spec's words, for comparison with the source: the
claimed Train-Case normalization in which the first character of the
string and the first character following **every** `-` is upper-cased. -/
def claimedTrainRecase : List Char → Bool → List Char
  | [], _ => []
  | c :: cs, up =>
    (if up then rustToAsciiUppercase c else c) :: claimedTrainRecase cs (c = '-')


theorem char_toNat_ofNat {n : Nat} (h : n < 55296) :
    (Char.ofNat n).toNat = n := by
  have hv : n.isValidChar := Or.inl h
  simp [Char.ofNat, hv, Char.ofNatAux, Char.toNat, UInt32.toNat]

theorem char_eq_of_toNat_eq {a b : Char} (h : a.toNat = b.toNat) : a = b := by
  cases a; cases b
  simp only [Char.toNat] at h
  congr 1
  exact UInt32.toNat.inj h

/-- An ASCII letter or underscore passes both character checks of
`validate_name_snake`. -/
theorem snake_char_ok {c : Char} (h : isAsciiLetter c = true ∨ c = '_') :
    rustIsNumeric c = false ∧ (!rustIsAlphabetic c && !(c = '_')) = false := by
  rcases h with h | rfl
  · simp only [isAsciiLetter, Bool.or_eq_true, Bool.and_eq_true,
      decide_eq_true_eq] at h
    have halpha : rustIsAlphabetic c = true := by
      simp only [rustIsAlphabetic, Bool.or_eq_true, Bool.and_eq_true,
        decide_eq_true_eq]
      omega
    have hnum : rustIsNumeric c = false := by
      rw [Bool.eq_false_iff]
      intro hn
      simp only [rustIsNumeric, Bool.or_eq_true, Bool.and_eq_true,
        decide_eq_true_eq] at hn
      omega
    simp [hnum, halpha]
  · constructor <;> decide

/-- `snakeLoop` scans to the end of a list of ASCII letters and
underscores without reporting a violation. -/
theorem snakeLoop_none {l : List Char}
    (h : ∀ c ∈ l, isAsciiLetter c = true ∨ c = '_') : snakeLoop l = none := by
  induction l with
  | nil => rfl
  | cons c cs ih =>
    obtain ⟨h1, h2⟩ := snake_char_ok (h c (.head _))
    simp [snakeLoop, h1, h2, ih (fun x hx => h x (.tail _ hx))]

/-- `snakeLoop` reports `SpecialCharNotAllowed` at a `-` or space that
follows a prefix of ASCII letters and underscores. -/
theorem snakeLoop_insert_special (u v : List Char) (x : Char)
    (hu : ∀ c ∈ u, isAsciiLetter c = true ∨ c = '_')
    (hx : x = '-' ∨ x = ' ') :
    snakeLoop (u ++ x :: v) = some .SpecialCharNotAllowed := by
  induction u with
  | nil => rcases hx with rfl | rfl <;> rfl
  | cons c cs ih =>
    obtain ⟨h1, h2⟩ := snake_char_ok (hu c (.head _))
    simp [snakeLoop, h1, h2, ih (fun x hx => hu x (.tail _ hx))]

/-- C5: every string of ASCII letters and `_` (the empty string included)
passes `check_name` under `SnakeCase` with the lower-cased input as output,
and inserting a `-` or a space anywhere into such a string makes
`check_name` fail with `SpecialCharNotAllowed`. -/
theorem snake_letters_ok_and_separator_fails :
    (∀ s : String, (∀ c ∈ s.data, isAsciiLetter c = true ∨ c = '_') →
      check_name s Case.SnakeCase = .ok (rustToLowercase s))
    ∧ (∀ (u v : List Char) (x : Char),
        (∀ c ∈ u ++ v, isAsciiLetter c = true ∨ c = '_') →
        x = '-' ∨ x = ' ' →
        check_name ⟨u ++ x :: v⟩ Case.SnakeCase =
          .error .SpecialCharNotAllowed) := by
  constructor
  · intro s h
    simp [check_name, validate_name_snake, snakeLoop_none h]
  · intro u v x hu hx
    have hu' : ∀ c ∈ u, isAsciiLetter c = true ∨ c = '_' :=
      fun c hc => hu c (List.mem_append.mpr (Or.inl hc))
    simp [check_name, validate_name_snake,
      snakeLoop_insert_special u v x hu' hx]

/-- Witness for C5 at `"Sk_learn"` (success, lower-cased output) and at
`"sk learn"` (a space inserted into `"sklearn"`). -/
theorem snake_letters_ok_and_separator_fails_witness :
    check_name "Sk_learn" Case.SnakeCase = .ok "sk_learn" ∧
    check_name "sk learn" Case.SnakeCase = .error .SpecialCharNotAllowed := by
  constructor
  · exact snake_letters_ok_and_separator_fails.1 "Sk_learn" (by decide)
  · exact snake_letters_ok_and_separator_fails.2 ['s', 'k']
      ['l', 'e', 'a', 'r', 'n'] ' ' (by decide) (Or.inr rfl)

/-- C8: for every pair of names and every docs flag, the directory plan is
exactly root; root/config; root/files; root/notebooks; root/test;
root/src; root/src/package, in this order, with root/docs appended last
exactly when the flag is set (7 directories without docs, 8 with). -/
theorem get_dirs_plan_exact (root pkg : String) (docs : Bool) :
    get_dirs root docs pkg =
      [root, root ++ "/config", root ++ "/files", root ++ "/notebooks",
       root ++ "/test", root ++ "/src", root ++ "/src/" ++ pkg]
      ++ (if docs then [root ++ "/docs"] else [])
    ∧ (get_dirs root docs pkg).length = (if docs then 8 else 7) := by
  cases docs <;> simp [get_dirs]

/-- The modelled alphabetic and numeric code-point tables are disjoint. -/
theorem alphabetic_not_numeric {c : Char} (h : rustIsAlphabetic c = true) :
    rustIsNumeric c = false := by
  rw [Bool.eq_false_iff]
  intro hn
  simp only [rustIsAlphabetic, Bool.or_eq_true, Bool.and_eq_true,
    decide_eq_true_eq] at h
  simp only [rustIsNumeric, Bool.or_eq_true, Bool.and_eq_true,
    decide_eq_true_eq] at hn
  omega

/-- An ASCII letter is alphabetic. -/
theorem asciiLetter_alphabetic {c : Char} (h : isAsciiLetter c = true) :
    rustIsAlphabetic c = true := by
  simp only [isAsciiLetter, Bool.or_eq_true, Bool.and_eq_true,
    decide_eq_true_eq] at h
  simp only [rustIsAlphabetic, Bool.or_eq_true, Bool.and_eq_true,
    decide_eq_true_eq]
  omega

/-- A lower-case ASCII letter is alphabetic. -/
theorem lowerAscii_alphabetic {c : Char}
    (h : 97 ≤ c.toNat ∧ c.toNat ≤ 122) : rustIsAlphabetic c = true := by
  simp only [rustIsAlphabetic, Bool.or_eq_true, Bool.and_eq_true,
    decide_eq_true_eq]
  omega

/-- An alphabetic character or underscore passes both character checks of
`validate_name_snake`. -/
theorem snake_char_ok_alpha {c : Char}
    (h : rustIsAlphabetic c = true ∨ c = '_') :
    rustIsNumeric c = false ∧ (!rustIsAlphabetic c && !(c = '_')) = false := by
  rcases h with h | rfl
  · exact ⟨alphabetic_not_numeric h, by simp [h]⟩
  · constructor <;> decide

/-- An alphabetic character or `-` passes both character checks of
`validate_name_train`. -/
theorem train_char_ok {c : Char}
    (h : rustIsAlphabetic c = true ∨ c = '-') :
    rustIsNumeric c = false ∧ (!rustIsAlphabetic c && !(c = '-')) = false := by
  rcases h with h | rfl
  · exact ⟨alphabetic_not_numeric h, by simp [h]⟩
  · constructor <;> decide

/-- A character outside all three shift ranges is fixed by the lowercase
map. -/
theorem rustCharToLowercase_eq_self {c : Char}
    (h1 : ¬(65 ≤ c.toNat ∧ c.toNat ≤ 90))
    (h2 : ¬(0xC0 ≤ c.toNat ∧ c.toNat ≤ 0xDE ∧ c.toNat ≠ 0xD7))
    (h3 : c.toNat ≠ 0xB5) : rustCharToLowercase c = c := by
  simp only [rustCharToLowercase, Bool.and_eq_true, Bool.not_eq_true',
    decide_eq_true_eq, decide_eq_false_iff_not]
  rw [if_neg (by omega), if_neg (by omega), if_neg (by omega)]

/-- A lower-case ASCII letter is fixed by the lowercase map. -/
theorem lower_eq_self_of_lowerAscii {c : Char}
    (h : 97 ≤ c.toNat ∧ c.toNat ≤ 122) : rustCharToLowercase c = c :=
  rustCharToLowercase_eq_self (by omega) (by omega) (by omega)

/-- Lowercasing preserves the alphabetic table. -/
theorem lower_preserves_alphabetic {c : Char}
    (h : rustIsAlphabetic c = true) :
    rustIsAlphabetic (rustCharToLowercase c) = true := by
  simp only [rustIsAlphabetic, Bool.or_eq_true, Bool.and_eq_true,
    decide_eq_true_eq] at h ⊢
  simp only [rustCharToLowercase, Bool.and_eq_true, Bool.not_eq_true',
    decide_eq_true_eq, decide_eq_false_iff_not]
  by_cases h1 : 65 ≤ c.toNat ∧ c.toNat ≤ 90
  · rw [if_pos h1, char_toNat_ofNat (by omega)]
    omega
  · rw [if_neg h1]
    by_cases h2 : (0xC0 ≤ c.toNat ∧ c.toNat ≤ 0xDE) ∧ ¬(c.toNat = 0xD7)
    · rw [if_pos h2, char_toNat_ofNat (by omega)]
      omega
    · rw [if_neg h2]
      by_cases h3 : c.toNat = 0xB5
      · rw [if_pos h3, char_toNat_ofNat (by omega)]
        omega
      · rw [if_neg h3]
        omega

/-- Lowercasing an ASCII letter or `-` yields a lower-case ASCII letter or
`-`. -/
theorem lower_of_asciiLetter_or_dash {c : Char}
    (h : isAsciiLetter c = true ∨ c = '-') :
    (97 ≤ (rustCharToLowercase c).toNat ∧
      (rustCharToLowercase c).toNat ≤ 122) ∨ rustCharToLowercase c = '-' := by
  rcases h with h | rfl
  · left
    simp only [isAsciiLetter, Bool.or_eq_true, Bool.and_eq_true,
      decide_eq_true_eq] at h
    rcases h with h | h
    · simp only [rustCharToLowercase, Bool.and_eq_true, Bool.not_eq_true',
        decide_eq_true_eq, decide_eq_false_iff_not]
      rw [if_pos (by omega), char_toNat_ofNat (by omega)]
      omega
    · rw [lower_eq_self_of_lowerAscii h]
      omega
  · right
    rfl

/-- Lowercasing undoes the ASCII-uppercasing of a lower-case ASCII letter
or `-`. -/
theorem lower_upper_eq_self {c : Char}
    (h : (97 ≤ c.toNat ∧ c.toNat ≤ 122) ∨ c = '-') :
    rustCharToLowercase (rustToAsciiUppercase c) = c := by
  rcases h with h | rfl
  · apply char_eq_of_toNat_eq
    simp only [rustToAsciiUppercase, Bool.and_eq_true, decide_eq_true_eq]
    rw [if_pos (by omega)]
    have hup : (Char.ofNat (c.toNat - 32)).toNat = c.toNat - 32 :=
      char_toNat_ofNat (by omega)
    simp only [rustCharToLowercase, Bool.and_eq_true, Bool.not_eq_true',
      decide_eq_true_eq, decide_eq_false_iff_not, hup]
    rw [if_pos (by omega), char_toNat_ofNat (by omega)]
    omega
  · rfl

/-- ASCII-uppercasing keeps a lower-case ASCII letter or `-` in the
allowed Train-Case alphabet. -/
theorem upper_allowed {c : Char}
    (h : (97 ≤ c.toNat ∧ c.toNat ≤ 122) ∨ c = '-') :
    rustIsAlphabetic (rustToAsciiUppercase c) = true ∨
      rustToAsciiUppercase c = '-' := by
  rcases h with h | rfl
  · left
    simp only [rustToAsciiUppercase, Bool.and_eq_true, decide_eq_true_eq]
    rw [if_pos (by omega)]
    simp only [rustIsAlphabetic, Bool.or_eq_true, Bool.and_eq_true,
      decide_eq_true_eq]
    rw [char_toNat_ofNat (by omega)]
    omega
  · right
    rfl

/-- If `trainLoop` returns `ok`, the produced name is the accumulator
followed by the pure recasing pass `trainRecase`. -/
theorem trainLoop_ok_eq {l : List Char} :
    ∀ {up : Bool} {acc out : List Char},
      trainLoop l up acc = .ok out → out = acc.reverse ++ trainRecase l up := by
  induction l with
  | nil =>
    intro up acc out h
    simp only [trainLoop, Except.ok.injEq] at h
    simp [trainRecase, ← h]
  | cons c cs ih =>
    intro up acc out h
    simp only [trainLoop] at h
    split at h
    · exact absurd h (by simp)
    · split at h
      · exact absurd h (by simp)
      · split at h
        · rename_i hup
          rw [hup]
          have := ih h
          simp [trainRecase, this, List.append_assoc]
        · rename_i hup
          rw [Bool.not_eq_true] at hup
          rw [hup]
          split at h
          · rename_i hdash
            subst hdash
            have := ih h
            simp [trainRecase, this, List.append_assoc]
          · rename_i hdash
            have := ih h
            simp [trainRecase, hdash, this, List.append_assoc]

/-- On a list of allowed characters `trainLoop` succeeds and produces the
accumulator followed by the `trainRecase` pass. -/
theorem trainLoop_ok_of_allowed {l : List Char}
    (h : ∀ c ∈ l, rustIsAlphabetic c = true ∨ c = '-') :
    ∀ up acc, trainLoop l up acc = .ok (acc.reverse ++ trainRecase l up) := by
  induction l with
  | nil =>
    intro up acc
    simp [trainLoop, trainRecase]
  | cons c cs ih =>
    intro up acc
    obtain ⟨h1, h2⟩ := train_char_ok (h c (.head _))
    have ih' := ih (fun x hx => h x (.tail _ hx))
    cases up with
    | true =>
      simp [trainLoop, trainRecase, h1, h2, ih', List.append_assoc]
    | false =>
      by_cases hc : c = '-'
      · subst hc
        simp [trainLoop, trainRecase, h1, h2, ih', List.append_assoc]
      · have halpha : rustIsAlphabetic c = true := by
          rcases h c (.head _) with h' | h'
          · exact h'
          · exact absurd h' hc
        simp [trainLoop, trainRecase, h1, h2, hc, halpha, ih',
          List.append_assoc]

/-- A digit reached through a prefix of allowed characters makes
`trainLoop` fail with `NumberNotAllowed`, whatever the flag and
accumulator. -/
theorem trainLoop_digit_after_allowed {u : List Char}
    (hu : ∀ c ∈ u, rustIsAlphabetic c = true ∨ c = '-') {d : Char}
    (hd : rustIsNumeric d = true) (v : List Char) :
    ∀ up acc, trainLoop (u ++ d :: v) up acc = .error .NumberNotAllowed := by
  induction u with
  | nil =>
    intro up acc
    simp [trainLoop, hd]
  | cons c cs ih =>
    intro up acc
    obtain ⟨h1, h2⟩ := train_char_ok (hu c (.head _))
    have ih' := ih (fun x hx => hu x (.tail _ hx))
    cases up with
    | true =>
      simp [trainLoop, h1, h2, ih']
    | false =>
      by_cases hc : c = '-'
      · subst hc
        simp [trainLoop, h1, h2, ih']
      · have halpha : rustIsAlphabetic c = true := by
          rcases hu c (.head _) with h' | h'
          · exact h'
          · exact absurd h' hc
        simp [trainLoop, h1, h2, hc, halpha, ih']

/-- A digit reached through a prefix of allowed characters makes
`snakeLoop` fail with `NumberNotAllowed`. -/
theorem snakeLoop_digit_after_allowed {u : List Char}
    (hu : ∀ c ∈ u, rustIsAlphabetic c = true ∨ c = '_') {d : Char}
    (hd : rustIsNumeric d = true) (v : List Char) :
    snakeLoop (u ++ d :: v) = some .NumberNotAllowed := by
  induction u with
  | nil =>
    simp [snakeLoop, hd]
  | cons c cs ih =>
    obtain ⟨h1, h2⟩ := snake_char_ok_alpha (hu c (.head _))
    simp [snakeLoop, h1, h2, ih (fun x hx => hu x (.tail _ hx))]

/-- Lowercasing undoes the recasing pass on a list of lower-case ASCII
letters and dashes. -/
theorem map_lower_trainRecase {l : List Char}
    (h : ∀ c ∈ l, (97 ≤ c.toNat ∧ c.toNat ≤ 122) ∨ c = '-') :
    ∀ up, (trainRecase l up).map rustCharToLowercase = l := by
  induction l with
  | nil => intro up; cases up <;> rfl
  | cons c cs ih =>
    intro up
    have hc := h c (.head _)
    have ih' := ih (fun x hx => h x (.tail _ hx))
    cases up with
    | true =>
      simp [trainRecase, lower_upper_eq_self hc, ih']
    | false =>
      by_cases hdash : c = '-'
      · subst hdash
        simp [trainRecase, ih', show rustCharToLowercase '-' = '-' from rfl]
      · have hlow : rustCharToLowercase c = c := by
          rcases hc with hc | hc
          · exact lower_eq_self_of_lowerAscii hc
          · exact absurd hc hdash
        simp [trainRecase, hdash, hlow, ih']

/-- The recasing pass keeps every character in the allowed Train-Case
alphabet. -/
theorem trainRecase_allowed {l : List Char}
    (h : ∀ c ∈ l, (97 ≤ c.toNat ∧ c.toNat ≤ 122) ∨ c = '-') :
    ∀ up, ∀ c ∈ trainRecase l up, rustIsAlphabetic c = true ∨ c = '-' := by
  induction l with
  | nil => intro up c hc; cases up <;> simp [trainRecase] at hc
  | cons c cs ih =>
    intro up x hx
    have hc := h c (.head _)
    have ih' := ih (fun y hy => h y (.tail _ hy))
    cases up with
    | true =>
      simp only [trainRecase, List.mem_cons] at hx
      rcases hx with rfl | hx
      · exact upper_allowed hc
      · exact ih' false x hx
    | false =>
      by_cases hdash : c = '-'
      · subst hdash
        have hx' : x = '-' ∨ x ∈ trainRecase cs true := by
          simpa [trainRecase] using hx
        rcases hx' with rfl | hx'
        · exact Or.inr rfl
        · exact ih' true x hx'
      · have hx' : x = c ∨ x ∈ trainRecase cs false := by
          simpa [trainRecase, hdash] using hx
        rcases hx' with rfl | hx'
        · rcases hc with hc | hc
          · exact Or.inl (lowerAscii_alphabetic hc)
          · exact absurd hc hdash
        · exact ih' false x hx'

/-- C3 counterexample: on `"sk--learn"` the code produces `"Sk--learn"`,
not the claimed per-delimiter-capitalized `"Sk--Learn"`: the claimed
normalization (`claimedTrainRecase`, capitalize after every `-`) disagrees
with `check_name` on inputs with consecutive delimiters. -/
theorem train_recase_every_dash_cex :
    check_name "sk--learn" Case.TrainCase = .ok "Sk--learn" ∧
    String.mk (claimedTrainRecase (rustToLowercase "sk--learn").data true) =
      "Sk--Learn" ∧
    ("Sk--learn" : String) ≠ "Sk--Learn" :=
  ⟨rfl, rfl, by decide⟩

/-- C3 (amended): for every input accepted under `TrainCase`, the output
equals the lowercased input re-cased by `trainRecase`: the first character
of the string is ASCII-upper-cased, and the character after a `-` is
ASCII-upper-cased only when that `-` was not itself in capitalize
position; a `-` in capitalize position consumes the pending
capitalization, so after a leading `-` or consecutive `-`s the following
character stays lower-case. -/
theorem train_output_lowercase_then_recase {s r : String}
    (h : check_name s Case.TrainCase = .ok r) :
    r = ⟨trainRecase (rustToLowercase s).data true⟩ := by
  simp only [check_name, validate_name_train] at h
  cases heq : trainLoop (rustToLowercase s).data true [] with
  | error e =>
    rw [heq] at h
    exact absurd h (by simp)
  | ok cs =>
    rw [heq] at h
    simp only [Except.ok.injEq] at h
    have hout := trainLoop_ok_eq heq
    rw [← h]
    simp [hout]

/-- Witness for the amended C3 at `"sk-learn"`, whose accepted output
`"Sk-Learn"` is the lowercased input re-cased by `trainRecase`. -/
theorem train_output_lowercase_then_recase_witness :
    ("Sk-Learn" : String) =
      ⟨trainRecase (rustToLowercase "sk-learn").data true⟩ :=
  train_output_lowercase_then_recase (s := "sk-learn") (r := "Sk-Learn") rfl

/-- C4 counterexample: `"$1"` contains the decimal digit `1`, yet
`check_name` reports `SpecialCharNotAllowed`, not `NumberNotAllowed`,
under both policies, because the scan hits `$` first. -/
theorem digit_not_number_error_cex :
    ('1' ∈ "$1".data ∧ isAsciiDigit '1' = true) ∧
    check_name "$1" Case.SnakeCase = .error .SpecialCharNotAllowed ∧
    check_name "$1" Case.TrainCase = .error .SpecialCharNotAllowed ∧
    check_name "$1" Case.SnakeCase ≠ .error .NumberNotAllowed ∧
    check_name "$1" Case.TrainCase ≠ .error .NumberNotAllowed := by
  refine ⟨⟨by decide, by decide⟩, rfl, rfl, ?_, ?_⟩
  · rw [show check_name "$1" Case.SnakeCase =
      .error .SpecialCharNotAllowed from rfl]
    simp
  · rw [show check_name "$1" Case.TrainCase =
      .error .SpecialCharNotAllowed from rfl]
    simp

/-- C4 (amended): a string containing a decimal digit is rejected with
`NumberNotAllowed` provided every character before the first digit is
permitted by the policy (alphabetic, or the policy's delimiter); an
earlier disallowed character yields `SpecialCharNotAllowed` instead. -/
theorem digit_after_allowed_prefix_number_error (u v : List Char) (d : Char)
    (hd : isAsciiDigit d = true) :
    ((∀ c ∈ u, rustIsAlphabetic c = true ∨ c = '_') →
      check_name ⟨u ++ d :: v⟩ Case.SnakeCase = .error .NumberNotAllowed)
    ∧ ((∀ c ∈ u, rustIsAlphabetic c = true ∨ c = '-') →
      check_name ⟨u ++ d :: v⟩ Case.TrainCase = .error .NumberNotAllowed) := by
  have hdnum : rustIsNumeric d = true := by
    simp only [isAsciiDigit, Bool.and_eq_true, decide_eq_true_eq] at hd
    simp only [rustIsNumeric, Bool.or_eq_true, Bool.and_eq_true,
      decide_eq_true_eq]
    omega
  constructor
  · intro hu
    simp [check_name, validate_name_snake,
      snakeLoop_digit_after_allowed hu hdnum v]
  · intro hu
    have hmap : (rustToLowercase ⟨u ++ d :: v⟩).data =
        u.map rustCharToLowercase ++ rustCharToLowercase d ::
          v.map rustCharToLowercase := by
      simp [rustToLowercase]
    have hu' : ∀ c ∈ u.map rustCharToLowercase,
        rustIsAlphabetic c = true ∨ c = '-' := by
      intro c hc
      obtain ⟨a, ha, rfl⟩ := List.mem_map.mp hc
      rcases hu a ha with h' | h'
      · exact Or.inl (lower_preserves_alphabetic h')
      · subst h'
        exact Or.inr rfl
    have hdlow : rustCharToLowercase d = d := by
      simp only [isAsciiDigit, Bool.and_eq_true, decide_eq_true_eq] at hd
      exact rustCharToLowercase_eq_self (by omega) (by omega) (by omega)
    simp [check_name, validate_name_train, hmap, hdlow,
      trainLoop_digit_after_allowed hu' hdnum (v.map rustCharToLowercase)]

/-- Witness for the amended C4 at `"ab1"` under both policies. -/
theorem digit_after_allowed_prefix_number_error_witness :
    check_name "ab1" Case.SnakeCase = .error .NumberNotAllowed ∧
    check_name "ab1" Case.TrainCase = .error .NumberNotAllowed :=
  ⟨(digit_after_allowed_prefix_number_error ['a', 'b'] [] '1'
      (by decide)).1 (by decide),
   (digit_after_allowed_prefix_number_error ['a', 'b'] [] '1'
      (by decide)).2 (by decide)⟩

/-- C6 (documents the code bug): the non-ASCII alphabetic character `é`
passes `check_name` under both policies — `char::is_alphabetic` accepts
all Unicode letters — although the module documentation and the claim
require only ASCII letters to be accepted. -/
theorem nonascii_alphabetic_accepted_bug :
    check_name "é" Case.SnakeCase = .ok "é" ∧
    check_name "é" Case.TrainCase = .ok "é" ∧
    isAsciiLetter 'é' = false ∧ rustIsAlphabetic 'é' = true :=
  ⟨rfl, rfl, by decide, by decide⟩

/-- C7: every string of ASCII letters and `-` is accepted under
`TrainCase`, and re-validating the output under `TrainCase` returns the
output itself (idempotence). -/
theorem train_letters_dash_ok_idempotent (s : String)
    (h : ∀ c ∈ s.data, isAsciiLetter c = true ∨ c = '-') :
    ∃ r, check_name s Case.TrainCase = .ok r ∧
      check_name r Case.TrainCase = .ok r := by
  have hL : ∀ c ∈ (rustToLowercase s).data,
      (97 ≤ c.toNat ∧ c.toNat ≤ 122) ∨ c = '-' := by
    intro c hc
    have hc' : c ∈ s.data.map rustCharToLowercase := hc
    obtain ⟨a, ha, rfl⟩ := List.mem_map.mp hc'
    exact lower_of_asciiLetter_or_dash (h a ha)
  have hallow : ∀ c ∈ (rustToLowercase s).data,
      rustIsAlphabetic c = true ∨ c = '-' := by
    intro c hc
    rcases hL c hc with h' | h'
    · exact Or.inl (lowerAscii_alphabetic h')
    · exact Or.inr h'
  refine ⟨⟨trainRecase (rustToLowercase s).data true⟩, ?_, ?_⟩
  · simp [check_name, validate_name_train,
      trainLoop_ok_of_allowed hallow true []]
  · have hdata :
        (rustToLowercase ⟨trainRecase (rustToLowercase s).data true⟩).data
          = (rustToLowercase s).data :=
      map_lower_trainRecase hL true
    simp [check_name, validate_name_train, hdata,
      trainLoop_ok_of_allowed hallow true []]

/-- Witness for C7 at `"sk-learn"`. -/
theorem train_letters_dash_ok_idempotent_witness :
    ∃ r, check_name "sk-learn" Case.TrainCase = .ok r ∧
      check_name r Case.TrainCase = .ok r :=
  train_letters_dash_ok_idempotent "sk-learn" (by decide)

/-- C9: for every pair of names the manifest's contents are the template
constants verbatim, except the pyproject entry, whose content is the
pyproject template with the package name substituted for its token; that
template contains exactly one `\x7b\x7d` token; no other entry's content
depends on either name (replacing entry 1 makes the content lists equal
for all inputs), while the pyproject content genuinely does. -/
theorem files_manifest_single_substitution :
    (∀ root pkg : String,
      (get_files root pkg).map Prod.snd =
        [SAMPLE_README, rustReplace SAMPLE_PYPROJECT "\x7b\x7d" pkg,
         SAMPLE_GITIGNORE, SAMPLE_INIT, SAMPLE_ENV, SAMPLE_DB, SAMPLE_TEST,
         SAMPLE_MAIN, SAMPLE_CONFIG])
    ∧ countOccurrences "\x7b\x7d".data SAMPLE_PYPROJECT.data = 1
    ∧ (∀ root pkg root' pkg' : String,
        ((get_files root pkg).map Prod.snd).set 1 "" =
          ((get_files root' pkg').map Prod.snd).set 1 "")
    ∧ rustReplace SAMPLE_PYPROJECT "\x7b\x7d" "a" ≠
        rustReplace SAMPLE_PYPROJECT "\x7b\x7d" "b" := by
  refine ⟨fun root pkg => rfl, rfl, fun root pkg root' pkg' => rfl, ?_⟩
  decide

/-- C2: if either name fails validation, `build_skeleton` returns
`NameError` and leaves the filesystem unchanged — no directory or file is
created or removed. -/
theorem build_name_error_no_side_effect (cd : Option FsPath) (fs : Fs)
    (pn kn : String) (docs : Bool)
    (h : (∃ e, check_name pn Case.TrainCase = .error e) ∨
         (∃ e, check_name kn Case.SnakeCase = .error e)) :
    build_skeleton cd pn kn docs fs = (.error .NameError, fs) := by
  rcases h with ⟨e, he⟩ | ⟨e, he⟩
  · simp [build_skeleton, he]
  · cases h1 : check_name pn Case.TrainCase with
    | error e' => simp [build_skeleton, h1]
    | ok project => simp [build_skeleton, h1, he]

/-- Witness for C2: an invalid project name (`"a1"` contains a digit)
aborts with `NameError` and the filesystem value is returned untouched. -/
theorem build_name_error_no_side_effect_witness :
    build_skeleton (some []) "a1" "ok" false ⟨[[]], []⟩ =
      (.error .NameError, ⟨[[]], []⟩) :=
  build_name_error_no_side_effect (some []) ⟨[[]], []⟩ "a1" "ok" false
    (Or.inl ⟨.NumberNotAllowed, rfl⟩)

/-- C1: once both names validate, a failing `make_dirs` leads to a
non-recursive `remove_dir` of the root and a failing `make_files` (after
`make_dirs` succeeded) to a recursive `remove_dir_all` of the root; in
both cases the removal's outcome is discarded (`Option.getD` keeps the
pre-removal state when the removal itself fails) and the reported result
is `IOError` regardless. -/
theorem build_rollback_discards_cleanup (cwd : FsPath) (fs : Fs)
    (pn kn project pkg : String) (docs : Bool)
    (h1 : check_name pn Case.TrainCase = .ok project)
    (h2 : check_name kn Case.SnakeCase = .ok pkg) :
    (∀ fs1, make_dirs cwd project docs pkg fs = (fs1, false) →
      build_skeleton (some cwd) pn kn docs fs =
        (.error .IOError,
          (fs1.removeDir (joinPath cwd project)).getD fs1))
    ∧ (∀ fs1 fs2, make_dirs cwd project docs pkg fs = (fs1, true) →
        make_files cwd project pkg fs1 = (fs2, false) →
        build_skeleton (some cwd) pn kn docs fs =
          (.error .IOError,
            (fs2.removeDirAll (joinPath cwd project)).getD fs2)) := by
  constructor
  · intro fs1 hd
    simp [build_skeleton, h1, h2, hd]
  · intro fs1 fs2 hd hf
    simp [build_skeleton, h1, h2, hd, hf]

/-- Witness for C1: a file already sits at the root path, so `make_dirs`
fails at once, the non-recursive removal of the root fails too (it is not
a directory), that failure is discarded, and `IOError` is reported with
the filesystem unchanged. -/
theorem build_rollback_discards_cleanup_witness :
    build_skeleton (some []) "aa" "bb" false ⟨[[]], [(["Aa"], "x")]⟩ =
      (.error .IOError, ⟨[[]], [(["Aa"], "x")]⟩) :=
  (build_rollback_discards_cleanup [] ⟨[[]], [(["Aa"], "x")]⟩ "aa" "bb"
      "Aa" "bb" false rfl rfl).1 ⟨[[]], [(["Aa"], "x")]⟩ rfl

/-- C10: when an empty directory already exists at the target root path
and both names validate, `build_skeleton` returns `IOError` and the
rollback's `remove_dir` deletes that pre-existing directory, so it no
longer exists afterwards: the filesystem is not left unchanged on this
error. -/
theorem preexisting_empty_root_removed (cwd : FsPath) (fs : Fs)
    (pn kn project pkg : String) (docs : Bool)
    (h1 : check_name pn Case.TrainCase = .ok project)
    (h2 : check_name kn Case.SnakeCase = .ok pkg)
    (hdir : fs.isDir (joinPath cwd project) = true)
    (hempty : fs.hasChild (joinPath cwd project) = false) :
    build_skeleton (some cwd) pn kn docs fs =
      (.error .IOError,
        { fs with dirs :=
            fs.dirs.filter (fun q => !(q == joinPath cwd project)) })
    ∧ ({ fs with dirs :=
          fs.dirs.filter (fun q => !(q == joinPath cwd project)) } : Fs).isDir
        (joinPath cwd project) = false := by
  have hex : fs.existsPath (joinPath cwd project) = true := by
    simp [Fs.existsPath, hdir]
  have hmd : make_dirs cwd project docs pkg fs = (fs, false) := by
    cases docs <;> simp [make_dirs, get_dirs, makeDirsLoop, Fs.mkdir, hex]
  have hrd : fs.removeDir (joinPath cwd project) =
      some { fs with dirs :=
        fs.dirs.filter (fun q => !(q == joinPath cwd project)) } := by
    simp [Fs.removeDir, hdir, hempty]
  constructor
  · simp [build_skeleton, h1, h2, hmd, hrd]
  · simp [Fs.isDir]

/-- Witness for C10: the empty directory `Aa` exists beforehand; the
build fails with `IOError` and afterwards `Aa` is gone. -/
theorem preexisting_empty_root_removed_witness :
    build_skeleton (some []) "aa" "bb" false ⟨[[], ["Aa"]], []⟩ =
      (.error .IOError, ⟨[[]], []⟩) ∧
    Fs.isDir ⟨[[]], []⟩ ["Aa"] = false := by
  have h := preexisting_empty_root_removed [] ⟨[[], ["Aa"]], []⟩ "aa" "bb"
    "Aa" "bb" false rfl rfl (by decide) (by decide)
  exact h
